import Mathlib

/-!
Verification development for the totem kiosk service worker
(`service-worker` source, version-based cache variant with the
essential-set gate).

The service worker is embedded shallowly:

* The durable Cache Storage (`caches`) is an association list from cache
  names to caches; a cache is an association list from request URLs to
  stored responses, in insertion order (`caches.match` walks the caches
  in creation order and returns the first hit).
* The process-wide mutable globals `CACHE_NAME` / `CURRENT_VERSION` are a
  `SWState` record threaded explicitly.
* A network fetch is a `FetchResult`: either the promise rejects
  (`failure`) or it resolves with a `Response` carrying a status and the
  parsed `version` field of its JSON body (`none` models an absent,
  empty, or unparsable field, which the source collapses to `null` via
  `data.version || null` and its `catch` blocks).
* Event handlers become functions from their inputs (the fetch results
  the environment would supply) and the pre-state to the post-state,
  plus observable outputs: the broadcast client messages, the reply-port
  messages, and for the update flow an ordered trace of the storage
  side effects.

JS string primitives used by the source (`startsWith`, `includes`,
`sort()`, `endsWith` inside a regex test) are re-implemented on
`String.data` so that all definitions evaluate by kernel reduction.
-/

namespace Totem

/-- Lexicographic comparison of character lists, mirroring the default
JS `Array.prototype.sort` comparator on strings (code-unit order; all
names involved are ASCII, where code-unit and code-point order agree). -/
def listLexLe : List Char → List Char → Bool
  | [], _ => true
  | _ :: _, [] => false
  | a :: as, b :: bs => if a < b then true else if b < a then false else listLexLe as bs

/-- `strLe a b`: `a` sorts no later than `b` under the JS default sort. -/
def strLe (a b : String) : Bool := listLexLe a.data b.data

/-- JS `s.startsWith(p)`. -/
def strStartsWith (s p : String) : Bool := p.data.isPrefixOf s.data

/-- Whether `t` occurs as a contiguous run inside `s` (helper for JS
`String.prototype.includes`). -/
def listContainsSub : List Char → List Char → Bool
  | [], t => t.isEmpty
  | c :: rest, t => t.isPrefixOf (c :: rest) || listContainsSub rest t

/-- JS `s.includes(t)`. -/
def strIncludes (s t : String) : Bool := listContainsSub s.data t.data

/-- JS `s.endsWith(t)`. -/
def strEndsWith (s t : String) : Bool := t.data.isSuffixOf s.data

/-- The JS default sort order, as a relation. -/
def strLeRel : String → String → Prop := fun a b => strLe a b = true

instance : DecidableRel strLeRel := fun a b => instDecidableEqBool (strLe a b) true

/-- JS `array.sort()` with the default comparator: ascending
lexicographic order. -/
def sortAsc (l : List String) : List String := List.insertionSort strLeRel l

/-- A captured HTTP response: its status, body text, and the parsed
`version` field of its JSON body (`none` when the body is not JSON, has
no `version` field, or the field is falsy — all of which the source
collapses to `null`). -/
structure Response where
  status : Nat
  body : String
  version : Option String
deriving Repr, DecidableEq

/-- JS `Response.ok`: status in the 200–299 range. -/
def Response.ok (r : Response) : Bool := 200 ≤ r.status && r.status < 300

/-- Outcome of a `fetch` call: the promise rejects (network error) or
resolves with a response (possibly a non-2xx one). -/
inductive FetchResult where
  | failure : FetchResult
  | response : Response → FetchResult
deriving Repr, DecidableEq

/-- One cache generation: stored (URL, response) entries. -/
abbrev Cache := List (String × Response)

/-- The durable Cache Storage: named generations in creation order. -/
abbrev CacheStore := List (String × Cache)

/-- `cache.match(url)` on a single cache. -/
def cacheMatch (c : Cache) (url : String) : Option Response :=
  (c.find? (fun e => e.1 == url)).map (·.2)

/-- `cache.put(url, response)`: replaces any previous entry for the URL. -/
def cachePut (c : Cache) (url : String) (r : Response) : Cache :=
  (c.filter (fun e => e.1 != url)) ++ [(url, r)]

/-- `caches.keys()`: the persisted cache names, in creation order. -/
def storeNames (s : CacheStore) : List String := s.map (·.1)

/-- Whether a cache of the given name is persisted. -/
def storeHas (s : CacheStore) (name : String) : Bool := (storeNames s).contains name

/-- `caches.open(name)`: creates an empty cache when none exists. -/
def storeOpen (s : CacheStore) (name : String) : CacheStore :=
  if storeHas s name then s else s ++ [(name, [])]

/-- Contents of the named cache (empty when absent). -/
def storeGet (s : CacheStore) (name : String) : Cache :=
  ((s.find? (fun e => e.1 == name)).map (·.2)).getD []

/-- `caches.open(name)` followed by `cache.put(url, r)` on it. -/
def storePut (s : CacheStore) (name url : String) (r : Response) : CacheStore :=
  (storeOpen s name).map (fun e => if e.1 == name then (e.1, cachePut e.2 url r) else e)

/-- `caches.delete(name)`. -/
def storeDelete (s : CacheStore) (name : String) : CacheStore :=
  s.filter (fun e => e.1 != name)

/-- `caches.match(url)`: searches every cache in creation order and
returns the first stored response found. -/
def cachesMatch (s : CacheStore) (url : String) : Option Response :=
  match s with
  | [] => none
  | (_, c) :: rest =>
    match cacheMatch c url with
    | some r => some r
    | none => cachesMatch rest url

/-- The process-wide mutable globals of the service worker. -/
structure SWState where
  CACHE_NAME : String
  CURRENT_VERSION : Option String
deriving Repr, DecidableEq

/-- Initial values of the globals (`let CACHE_NAME = 'totem-cache-v9'`,
`let CURRENT_VERSION = null`). -/
def initialState : SWState := { CACHE_NAME := "totem-cache-v9", CURRENT_VERSION := none }

/-- The fixed generation-name prefix `'totem-cache-'`. -/
def prefixStr : String := "totem-cache-"

/-- `getAssets()`: the asset manifest under the memoized base path. -/
def getAssets (bp : String) : List String :=
  [bp ++ "/", bp ++ "/index.html", bp ++ "/style.css", bp ++ "/main.js",
   bp ++ "/media/video2.mp4", bp ++ "/media/image2.png",
   bp ++ "/manifest.json", bp ++ "/version.json"]

/-- `fetchVersion()`: fetch `version.json` (cache-busted, `no-store`);
a rejected fetch or a non-ok status is caught and yields `null`;
otherwise the parsed `data.version || null`. -/
def fetchVersion (netVersion : FetchResult) : Option String :=
  match netVersion with
  | .failure => none
  | .response r => if r.ok then r.version else none

/-- `getCachedVersion()`: filter the persisted cache names by the fixed
prefix; if none remain return `null`; otherwise take
`sort().reverse()[0]` (the lexicographically greatest) and extract the
suffix via the regex `/totem-cache-(.+)/` — when that fails (the name is
exactly the bare prefix, so the capture would be empty) fall back to the
`version` field of that cache's stored `'/version.json'` entry. -/
def getCachedVersion (store : CacheStore) : Option String :=
  let totemCaches := (storeNames store).filter (fun n => strStartsWith n prefixStr)
  match (sortAsc totemCaches).reverse with
  | [] => none
  | latestCache :: _ =>
    let suffix := latestCache.drop prefixStr.length
    if suffix ≠ "" then some suffix
    else
      match cacheMatch (storeGet store latestCache) "/version.json" with
      | some r => r.version
      | none => none

/-- `checkForUpdate()`: `false` when the remote version is unknown;
`true` when it is known and no cached version exists; otherwise compare
the two identifiers. -/
def checkForUpdate (netVersion : FetchResult) (store : CacheStore) : Bool :=
  match fetchVersion netVersion with
  | none => false
  | some onlineVersion =>
    match getCachedVersion store with
    | none => true
    | some cachedVersion => onlineVersion != cachedVersion

/-- `initializeCacheName()`: adopt the remote version when known,
else the locally cached version when known, else fall back to the
hardcoded default name `'totem-cache-v1'` (note: the fallback branch
assigns only `CACHE_NAME`, leaving `CURRENT_VERSION` as it was). -/
def initializeCacheName (netVersion : FetchResult) (store : CacheStore)
    (st : SWState) : SWState :=
  match fetchVersion netVersion with
  | some onlineVersion =>
    { CACHE_NAME := prefixStr ++ onlineVersion, CURRENT_VERSION := some onlineVersion }
  | none =>
    match getCachedVersion store with
    | some cachedVersion =>
      { CACHE_NAME := prefixStr ++ cachedVersion, CURRENT_VERSION := some cachedVersion }
    | none => { st with CACHE_NAME := "totem-cache-v1" }

/-- Per-asset download loop shared by the install/update flows: each
asset is fetched (cache-busted, stored under its original URL); a
successful `ok` response is put into the named cache, any failure is
swallowed.  The `try cache.addAll` fast path of the install handler has
the same net effect on the store (all-ok runs cache every asset;
otherwise the individual fallback caches exactly the ok ones). -/
def populate (net : String → FetchResult) (as : List String) (name : String)
    (s : CacheStore) : CacheStore :=
  as.foldl (fun acc a =>
    match net a with
    | .response r => if r.ok then storePut acc name a r else acc
    | .failure => acc) s

/-- The per-asset `{ asset, success }` results collected by the
download loop (`success` iff the fetch resolved with an ok response). -/
def downloadResults (net : String → FetchResult) (as : List String) :
    List (String × Bool) :=
  as.map (fun a => (a,
    match net a with
    | .response r => r.ok
    | .failure => false))

/-- The `install` event handler: resolve the version, open the resulting
`CACHE_NAME` generation, and populate it from the network. -/
def installEvent (netVersion : FetchResult) (net : String → FetchResult)
    (bp : String) (store : CacheStore) (st : SWState) : SWState × CacheStore :=
  let st' := initializeCacheName netVersion store st
  let s1 := storeOpen store st'.CACHE_NAME
  (st', populate net (getAssets bp) st'.CACHE_NAME s1)

/-- Result of the `activate` event handler; `ranInit` records whether
the `if (!CURRENT_VERSION) await initializeCacheName()` guard fired. -/
structure ActivateResult where
  st : SWState
  store : CacheStore
  ranInit : Bool
deriving Repr, DecidableEq

/-- The `activate` event handler: re-run version resolution when
`CURRENT_VERSION` is still unset, then delete every prefixed cache
other than `CACHE_NAME` and claim the clients. -/
def activateEvent (netVersion : FetchResult) (st : SWState)
    (store : CacheStore) : ActivateResult :=
  let ranInit := st.CURRENT_VERSION.isNone
  let st' := if st.CURRENT_VERSION.isNone then initializeCacheName netVersion store st else st
  let oldCaches := (storeNames store).filter
    (fun n => strStartsWith n prefixStr && n != st'.CACHE_NAME)
  { st := st', store := oldCaches.foldl storeDelete store, ranInit := ranInit }

/-- The fixed 503 fallback `new Response('Offline', { status: 503, ... })`. -/
def offline503 : Response := { status := 503, body := "Offline", version := none }

/-- The media fallback `new Response('', { status: 404 })`. -/
def media404 : Response := { status := 404, body := "", version := none }

/-- The media-extension test `/\.(mp4|webm|ogg|mp3|wav|avi|mov)$/i`
(the source is case-insensitive; lowercase URLs are modelled). -/
def isMediaUrl (u : String) : Bool :=
  [".mp4", ".webm", ".ogg", ".mp3", ".wav", ".avi", ".mov"].any (fun e => strEndsWith u e)

/-- Outcome of one fetch-handler task: the response handed to the
client and the cache store it leaves behind. -/
structure ServeResult where
  response : Response
  store : CacheStore
deriving Repr, DecidableEq

/-- The `version.json` branch of the fetch handler: always fetch fresh
from the network (`no-store`); when the response is ok, refresh the
`CACHE_NAME` generation's entry; return the network response.  When the
fetch rejects, fall back to `caches.match` and finally to the 503
response. -/
def serveVersionJson (net : FetchResult) (req : String) (st : SWState)
    (store : CacheStore) : ServeResult :=
  match net with
  | .response r =>
    if r.ok then { response := r, store := storePut store st.CACHE_NAME req r }
    else { response := r, store := store }
  | .failure =>
    match cachesMatch store req with
    | some c => { response := c, store := store }
    | none => { response := offline503, store := store }

/-- Outcome of the cache-first branch, with the name of the cache a
write (if any) went to recorded for observation. -/
structure ServeCacheFirstResult where
  response : Response
  store : CacheStore
  wroteTo : Option String
deriving Repr, DecidableEq

/-- The cache-first branch of the fetch handler.  The task suspends at
each `await`, so the global state it observes can differ between its
steps; the embedding therefore takes explicit snapshots: `stRead` is the
cache store at the moment of the initial `caches.match`, while
`ptrAtWrite` / `stWrite` are the `CACHE_NAME` global and the store at
the moment the (background or blocking) `caches.open(CACHE_NAME)` +
`put` runs — the source reads the `CACHE_NAME` global at that later
moment, inside the refresh callback, not at the start of the task. -/
def serveCacheFirst (req : String) (net : FetchResult) (stRead : CacheStore)
    (ptrAtWrite : String) (stWrite : CacheStore) : ServeCacheFirstResult :=
  match cachesMatch stRead req with
  | some cached =>
    match net with
    | .response r =>
      if r.ok then
        { response := cached, store := storePut stWrite ptrAtWrite req r,
          wroteTo := some ptrAtWrite }
      else { response := cached, store := stWrite, wroteTo := none }
    | .failure => { response := cached, store := stWrite, wroteTo := none }
  | none =>
    match net with
    | .response r =>
      if r.ok then
        { response := r, store := storePut stWrite ptrAtWrite req r,
          wroteTo := some ptrAtWrite }
      else { response := r, store := stWrite, wroteTo := none }
    | .failure =>
      if isMediaUrl req then { response := media404, store := stWrite, wroteTo := none }
      else { response := offline503, store := stWrite, wroteTo := none }

/-- A message posted to clients / reply ports (`version := none` for
messages that carry no version field). -/
structure Message where
  type : String
  version : Option String
deriving Repr, DecidableEq

/-- Observable storage / pointer side effects of the update flow, in
program order. -/
inductive UpdateStep where
  | putAsset (cacheName url : String)
  | deleteCache (name : String)
  | setPointer (name version : String)
  | notify (msg : Message)
deriving Repr, DecidableEq

/-- Result of `updateCacheForNewVersion`: final globals, final store,
messages broadcast to all clients, and the ordered side-effect trace. -/
structure UpdateResult where
  st : SWState
  store : CacheStore
  messages : List Message
  trace : List UpdateStep
deriving Repr, DecidableEq

/-- The essential-files list of the update gate. -/
def essentialFiles : List String := ["index.html", "main.js", "style.css", "version.json"]

/-- The essential-set gate: some essential file name has a matching
asset (`assets.find(a => a.includes(file))`) whose download succeeded. -/
def hasEssential (bp : String) (results : List (String × Bool)) : Bool :=
  essentialFiles.any (fun file =>
    match (getAssets bp).find? (fun a => strIncludes a file) with
    | some asset => results.any (fun r => r.1 == asset && r.2)
    | none => false)

/-- `updateCacheForNewVersion(newVersion)`: open the generation named
for the new version, download every asset fresh into it, then apply the
essential-set gate.  On gate failure delete the new generation and
return (nothing else happens — in particular no client notification).
On gate success reassign `CACHE_NAME` / `CURRENT_VERSION`, delete every
other prefixed cache, and broadcast `CACHE_UPDATED`. -/
def updateCacheForNewVersion (newVersion : String) (net : String → FetchResult)
    (bp : String) (st : SWState) (store : CacheStore) : UpdateResult :=
  let newCacheName := prefixStr ++ newVersion
  let as := getAssets bp
  let s1 := storeOpen store newCacheName
  let results := downloadResults net as
  let s2 := populate net as newCacheName s1
  let putTrace := (as.filter (fun a =>
      match net a with
      | .response r => r.ok
      | .failure => false)).map (fun a => UpdateStep.putAsset newCacheName a)
  if hasEssential bp results then
    let st' : SWState := { CACHE_NAME := newCacheName, CURRENT_VERSION := some newVersion }
    let oldCaches := (storeNames s2).filter
      (fun n => strStartsWith n prefixStr && n != newCacheName)
    let msg : Message := { type := "CACHE_UPDATED", version := some newVersion }
    { st := st', store := oldCaches.foldl storeDelete s2,
      messages := [msg],
      trace := putTrace ++ UpdateStep.setPointer newCacheName newVersion
        :: (oldCaches.map UpdateStep.deleteCache ++ [UpdateStep.notify msg]) }
  else
    { st := st, store := storeDelete s2 newCacheName, messages := [],
      trace := putTrace ++ [UpdateStep.deleteCache newCacheName] }

/-- Result of the `UPDATE_VERSION` message handler: the update's result
plus the messages posted back on the reply port. -/
structure MessageResult where
  upd : UpdateResult
  portMessages : List Message
deriving Repr, DecidableEq

/-- The `UPDATE_VERSION` branch of the message handler: when the
supplied version is truthy, run `updateCacheForNewVersion` and — once
its promise settles, whatever happened inside — post
`CACHE_UPDATE_COMPLETE` with that version on the reply port. -/
def handleUpdateVersion (version : String) (net : String → FetchResult)
    (bp : String) (st : SWState) (store : CacheStore) : MessageResult :=
  if version ≠ "" then
    { upd := updateCacheForNewVersion version net bp st store,
      portMessages := [{ type := "CACHE_UPDATE_COMPLETE", version := some version }] }
  else
    { upd := { st := st, store := store, messages := [], trace := [] },
      portMessages := [] }

/-- Observation helper: whether an `UpdateStep` is a generation
deletion. -/
def isDeleteStep : UpdateStep → Bool
  | .deleteCache _ => true
  | _ => false

/-! ### Concrete fixtures used by witnesses and counterexamples -/

/-- A network that rejects every fetch (fully offline). -/
def netAllFail : String → FetchResult := fun _ => .failure

/-- A fresh ok response advertising version `A`. -/
def freshA : Response := { status := 200, body := "fresh", version := some "A" }

/-- A network that answers every fetch with `freshA`. -/
def netAllFresh : String → FetchResult := fun _ => .response freshA

/-- A stale response previously stored in a generation. -/
def staleResp : Response := { status := 200, body := "old", version := none }

/-- A descriptor response carrying version `Z`. -/
def descrZ : Response := { status := 200, body := "v", version := some "Z" }

/-- Globals pointing at the `A` generation. -/
def stA : SWState := { CACHE_NAME := "totem-cache-A", CURRENT_VERSION := some "A" }

/-- A store holding the single active `A` generation with one old entry. -/
def storeA : CacheStore := [("totem-cache-A", [("x", staleResp)])]

/-! ### Order properties of the JS sort comparator -/

theorem listLexLe_refl : ∀ as : List Char, listLexLe as as = true
  | [] => rfl
  | a :: as => by simp [listLexLe, lt_irrefl, listLexLe_refl as]

theorem strLe_refl (a : String) : strLe a a = true := listLexLe_refl a.data

theorem listLexLe_total : ∀ as bs : List Char,
    listLexLe as bs = true ∨ listLexLe bs as = true
  | [], _ => Or.inl rfl
  | _ :: _, [] => Or.inr rfl
  | a :: as, b :: bs => by
    rcases lt_trichotomy a b with h | h | h
    · exact Or.inl (by simp [listLexLe, h])
    · subst h
      rcases listLexLe_total as bs with h2 | h2
      · exact Or.inl (by simp [listLexLe, lt_irrefl, h2])
      · exact Or.inr (by simp [listLexLe, lt_irrefl, h2])
    · exact Or.inr (by simp [listLexLe, h])

theorem listLexLe_antisymm : ∀ as bs : List Char,
    listLexLe as bs = true → listLexLe bs as = true → as = bs
  | [], [], _, _ => rfl
  | [], _ :: _, _, h2 => by simp [listLexLe] at h2
  | _ :: _, [], h1, _ => by simp [listLexLe] at h1
  | a :: as, b :: bs, h1, h2 => by
    rcases lt_trichotomy a b with h | h | h
    · simp [listLexLe, h, asymm h] at h2
    · subst h
      simp only [listLexLe, lt_irrefl, if_false] at h1 h2
      rw [listLexLe_antisymm as bs h1 h2]
    · simp [listLexLe, h, asymm h] at h1

theorem listLexLe_trans : ∀ as bs cs : List Char,
    listLexLe as bs = true → listLexLe bs cs = true → listLexLe as cs = true
  | [], _, _, _, _ => rfl
  | _ :: _, [], _, h1, _ => by simp [listLexLe] at h1
  | _ :: _, _ :: _, [], _, h2 => by simp [listLexLe] at h2
  | a :: as, b :: bs, c :: cs, h1, h2 => by
    rcases lt_trichotomy a b with hab | hab | hab
    · rcases lt_trichotomy b c with hbc | hbc | hbc
      · simp [listLexLe, lt_trans hab hbc]
      · subst hbc; simp [listLexLe, hab]
      · simp [listLexLe, hbc, asymm hbc] at h2
    · subst hab
      simp only [listLexLe, lt_irrefl, if_false] at h1
      rcases lt_trichotomy a c with hac | hac | hac
      · simp [listLexLe, hac]
      · subst hac
        simp only [listLexLe, lt_irrefl, if_false] at h2 ⊢
        exact listLexLe_trans as bs cs h1 h2
      · simp [listLexLe, hac, asymm hac] at h2
    · simp [listLexLe, hab, asymm hab] at h1

theorem strLe_antisymm {a b : String} (h1 : strLe a b = true)
    (h2 : strLe b a = true) : a = b := by
  cases a with
  | mk da =>
    cases b with
    | mk db => exact congrArg String.mk (listLexLe_antisymm da db h1 h2)

instance : IsTotal String strLeRel := ⟨fun a b => listLexLe_total a.data b.data⟩

instance : IsTrans String strLeRel :=
  ⟨fun a b c h1 h2 => listLexLe_trans a.data b.data c.data h1 h2⟩

/-- The head of the reversed sorted list is a maximum of the input. -/
theorem sortAsc_reverse_head_max {l : List String} {m : String} {rest : List String}
    (h : (sortAsc l).reverse = m :: rest) :
    m ∈ l ∧ ∀ x ∈ l, strLe x m = true := by
  have hperm : (sortAsc l).Perm l := List.perm_insertionSort strLeRel l
  have hsorted : List.Sorted strLeRel (sortAsc l) :=
    List.sorted_insertionSort strLeRel l
  have hrev : List.Pairwise (fun a b => strLeRel b a) (sortAsc l).reverse :=
    List.pairwise_reverse.mpr hsorted
  rw [h] at hrev
  have hmrest : ∀ b ∈ rest, strLeRel b m := (List.pairwise_cons.mp hrev).1
  have hmem : m ∈ l := by
    have : m ∈ (sortAsc l).reverse := by rw [h]; exact List.mem_cons_self m rest
    exact hperm.mem_iff.mp (List.mem_reverse.mp this)
  refine ⟨hmem, fun x hx => ?_⟩
  have : x ∈ (sortAsc l).reverse := List.mem_reverse.mpr (hperm.mem_iff.mpr hx)
  rw [h] at this
  rcases List.mem_cons.mp this with rfl | hxr
  · exact strLe_refl x
  · exact hmrest x hxr

/-! ### Cache-store lemmas -/

theorem storeHas_iff {s : CacheStore} {n : String} :
    storeHas s n = true ↔ n ∈ storeNames s := by
  simp [storeHas, List.contains, List.elem_iff]

theorem mem_storeNames_storeOpen {s : CacheStore} {m n : String} :
    m ∈ storeNames (storeOpen s n) ↔ m ∈ storeNames s ∨ m = n := by
  unfold storeOpen
  by_cases h : storeHas s n = true
  · rw [if_pos h]
    exact ⟨Or.inl, fun h2 => h2.elim id (fun e => e ▸ storeHas_iff.mp h)⟩
  · rw [if_neg h]
    simp [storeNames]

theorem storeNames_storePut_of_mem {s : CacheStore} {n : String}
    (h : n ∈ storeNames s) (url : String) (r : Response) :
    storeNames (storePut s n url r) = storeNames s := by
  unfold storePut storeOpen
  rw [if_pos (storeHas_iff.mpr h)]
  unfold storeNames
  rw [List.map_map]
  congr 1
  funext e
  simp only [Function.comp]
  split <;> rfl

theorem mem_storeNames_storeDelete {s : CacheStore} {m n : String} :
    m ∈ storeNames (storeDelete s n) ↔ m ∈ storeNames s ∧ m ≠ n := by
  unfold storeDelete storeNames
  constructor
  · intro h
    obtain ⟨e, he, rfl⟩ := List.mem_map.mp h
    have h2 := List.mem_filter.mp he
    exact ⟨List.mem_map_of_mem _ h2.1, by simpa [bne_iff_ne] using h2.2⟩
  · rintro ⟨h1, h2⟩
    obtain ⟨e, he, rfl⟩ := List.mem_map.mp h1
    exact List.mem_map_of_mem _ (List.mem_filter.mpr ⟨he, by simpa [bne_iff_ne] using h2⟩)

theorem mem_storeNames_foldl_storeDelete {m : String} :
    ∀ (l : List String) (s : CacheStore),
      m ∈ storeNames (l.foldl storeDelete s) ↔ m ∈ storeNames s ∧ m ∉ l
  | [], s => by simp
  | x :: xs, s => by
    simp only [List.foldl_cons]
    rw [mem_storeNames_foldl_storeDelete xs, mem_storeNames_storeDelete,
      List.mem_cons]
    constructor
    · rintro ⟨⟨h1, h2⟩, h3⟩
      exact ⟨h1, fun hc => hc.elim h2 h3⟩
    · rintro ⟨h1, h2⟩
      exact ⟨⟨h1, fun hc => h2 (Or.inl hc)⟩, fun hc => h2 (Or.inr hc)⟩

theorem storeDelete_of_not_mem {s : CacheStore} {n : String}
    (h : n ∉ storeNames s) : storeDelete s n = s := by
  unfold storeDelete
  apply List.filter_eq_self.mpr
  intro e he
  have hmem : e.1 ∈ storeNames s := List.mem_map_of_mem _ he
  simp only [bne_iff_ne, ne_eq, decide_eq_true_eq]
  exact fun hc => h (hc ▸ hmem)

theorem storeDelete_storeOpen_self {store : CacheStore} {nc : String}
    (h : nc ∉ storeNames store) : storeDelete (storeOpen store nc) nc = store := by
  unfold storeOpen
  by_cases hh : storeHas store nc = true
  · rw [if_pos hh]
    exact storeDelete_of_not_mem h
  · rw [if_neg hh]
    show List.filter (fun e => e.1 != nc) (store ++ [(nc, [])]) = store
    rw [List.filter_append]
    have h2 : List.filter (fun e => e.1 != nc) [(nc, ([] : Cache))] = [] := by simp
    rw [h2, List.append_nil]
    exact storeDelete_of_not_mem h

theorem storeDelete_storePut (s : CacheStore) (n url : String) (r : Response) :
    storeDelete (storePut s n url r) n = storeDelete s n := by
  unfold storePut
  have h1 : ∀ l : CacheStore,
      storeDelete (l.map (fun e => if e.1 == n then (e.1, cachePut e.2 url r) else e)) n
        = storeDelete l n := by
    intro l
    induction l with
    | nil => rfl
    | cons e rest ih =>
      simp only [storeDelete, List.map_cons, List.filter_cons, beq_iff_eq] at ih ⊢
      by_cases h : e.1 = n
      · simp [h, ih]
      · simp [h, ih]
  rw [h1]
  unfold storeOpen
  split
  · rfl
  · simp [storeDelete, List.filter_append]

theorem storeNames_populate (net : String → FetchResult) (n : String) :
    ∀ (as : List String) (s : CacheStore), n ∈ storeNames s →
      storeNames (populate net as n s) = storeNames s := by
  intro as
  induction as with
  | nil => intro s _; rfl
  | cons a as ih =>
    intro s h
    simp only [populate, List.foldl_cons] at *
    cases hna : net a with
    | failure => exact ih s h
    | response r =>
      by_cases hok : r.ok = true
      · simp only [hok, if_true]
        have h2 : n ∈ storeNames (storePut s n a r) := by
          rw [storeNames_storePut_of_mem h]; exact h
        rw [ih _ h2, storeNames_storePut_of_mem h]
      · simp only [Bool.not_eq_true] at hok
        simp only [hok, if_false]
        exact ih s h

theorem storeDelete_populate (net : String → FetchResult) (n : String) :
    ∀ (as : List String) (s : CacheStore),
      storeDelete (populate net as n s) n = storeDelete s n := by
  intro as
  induction as with
  | nil => intro s; rfl
  | cons a as ih =>
    intro s
    simp only [populate, List.foldl_cons] at *
    cases hna : net a with
    | failure => exact ih s
    | response r =>
      by_cases hok : r.ok = true
      · simp only [hok, if_true]
        rw [ih _, storeDelete_storePut]
      · simp only [Bool.not_eq_true] at hok
        simp only [hok, if_false]
        exact ih s

/-! ### Claim theorems -/

/-- C2: for every pair of fetch outcome and persisted store,
`checkForUpdate` returns `true` iff the remote version is known
(`fetchVersion` yields an identifier) and either no local version is
known (`getCachedVersion` yields none) or the two identifiers differ;
in every other case — in particular whenever fetching the remote
version fails — it returns `false`. -/
theorem checkForUpdate_iff (netVersion : FetchResult) (store : CacheStore) :
    checkForUpdate netVersion store = true ↔
      ∃ r, fetchVersion netVersion = some r ∧
        (getCachedVersion store = none ∨ getCachedVersion store ≠ some r) := by
  unfold checkForUpdate
  cases hf : fetchVersion netVersion with
  | none => simp
  | some ov =>
    cases hc : getCachedVersion store with
    | none => simp
    | some cv =>
      simp only [bne_iff_ne, ne_eq, decide_eq_true_eq, Option.some.injEq]
      constructor
      · intro h
        exact ⟨ov, rfl, Or.inr (by simpa using fun e => h e.symm)⟩
      · rintro ⟨r, rfl, h⟩
        rcases h with h | h
        · exact absurd h (by simp)
        · simpa using fun e => h (by simp [e])

/-- C3: `initializeCacheName` resolves the version with this exact
priority: a known remote version is adopted regardless of local state;
otherwise a known locally cached version is adopted; otherwise the
hardcoded default name `totem-cache-v1` is installed, and the install
flow then creates (opens) a generation under that default identifier —
so even fully offline with no prior generation a deterministic
generation name exists. -/
theorem initializeCacheName_priority (netVersion : FetchResult)
    (net : String → FetchResult) (bp : String) (store : CacheStore) (st : SWState) :
    (∀ v, fetchVersion netVersion = some v →
      initializeCacheName netVersion store st
        = { CACHE_NAME := prefixStr ++ v, CURRENT_VERSION := some v })
    ∧ (fetchVersion netVersion = none → ∀ v, getCachedVersion store = some v →
      initializeCacheName netVersion store st
        = { CACHE_NAME := prefixStr ++ v, CURRENT_VERSION := some v })
    ∧ (fetchVersion netVersion = none → getCachedVersion store = none →
      (initializeCacheName netVersion store st).CACHE_NAME = "totem-cache-v1"
      ∧ (installEvent netVersion net bp store st).1.CACHE_NAME = "totem-cache-v1"
      ∧ "totem-cache-v1" ∈ storeNames (installEvent netVersion net bp store st).2) := by
  refine ⟨fun v hv => ?_, fun h0 v hv => ?_, fun h0 h1 => ?_⟩
  · simp [initializeCacheName, hv]
  · simp [initializeCacheName, h0, hv]
  · have hname : (initializeCacheName netVersion store st).CACHE_NAME = "totem-cache-v1" := by
      simp [initializeCacheName, h0, h1]
    refine ⟨hname, ?_, ?_⟩
    · simpa [installEvent] using hname
    · show "totem-cache-v1" ∈ storeNames (populate net (getAssets bp)
        (initializeCacheName netVersion store st).CACHE_NAME
        (storeOpen store (initializeCacheName netVersion store st).CACHE_NAME))
      rw [storeNames_populate _ _ _ _ (mem_storeNames_storeOpen.mpr (Or.inr rfl))]
      exact mem_storeNames_storeOpen.mpr (Or.inr hname.symm)

/-- Witness for C3: concrete runs exercising the three priority
branches (remote known; remote unknown with a cached generation;
fully offline first run, where the default-named generation is
created by install). -/
theorem initializeCacheName_priority_witness :
    initializeCacheName (.response freshA) [] initialState
      = { CACHE_NAME := prefixStr ++ "A", CURRENT_VERSION := some "A" }
    ∧ initializeCacheName .failure [("totem-cache-B", [])] initialState
      = { CACHE_NAME := prefixStr ++ "B", CURRENT_VERSION := some "B" }
    ∧ (initializeCacheName .failure [] initialState).CACHE_NAME = "totem-cache-v1"
    ∧ "totem-cache-v1" ∈ storeNames (installEvent .failure netAllFail "" [] initialState).2 :=
  ⟨(initializeCacheName_priority (.response freshA) netAllFail "" [] initialState).1
      "A" (by decide),
   (initializeCacheName_priority .failure netAllFail "" [("totem-cache-B", [])]
      initialState).2.1 (by decide) "B" (by decide),
   ((initializeCacheName_priority .failure netAllFail "" [] initialState).2.2
      (by decide) (by decide)).1,
   ((initializeCacheName_priority .failure netAllFail "" [] initialState).2.2
      (by decide) (by decide)).2.2⟩

/-- C5: for every intercepted `version.json` request, whenever the
network fetch resolves the client receives that network response —
never a stored generation entry, even if one exists; the cached copy is
consulted only after the fetch rejects, and when no cached copy exists
the fixed 503 response is returned. -/
theorem serveVersionJson_networkFirst (st : SWState) (store : CacheStore) (req : String) :
    (∀ r, (serveVersionJson (.response r) req st store).response = r)
    ∧ (∀ c, cachesMatch store req = some c →
        (serveVersionJson .failure req st store).response = c)
    ∧ (cachesMatch store req = none →
        (serveVersionJson .failure req st store).response = offline503) := by
  refine ⟨fun r => ?_, fun c hc => ?_, fun hn => ?_⟩
  · by_cases hok : r.ok = true <;> simp [serveVersionJson, hok]
  · simp [serveVersionJson, hc]
  · simp [serveVersionJson, hn]

/-- Witness for C5: with a cached descriptor present, a successful
fetch is served from the network; after a rejected fetch the cached
copy is served; with no cached copy the 503 fallback is served. -/
theorem serveVersionJson_networkFirst_witness :
    (serveVersionJson (.response freshA) "/version.json" stA
        [("totem-cache-A", [("/version.json", staleResp)])]).response = freshA
    ∧ (serveVersionJson .failure "/version.json" stA
        [("totem-cache-A", [("/version.json", staleResp)])]).response = staleResp
    ∧ (serveVersionJson .failure "/version.json" stA []).response = offline503 :=
  ⟨(serveVersionJson_networkFirst stA
      [("totem-cache-A", [("/version.json", staleResp)])] "/version.json").1 freshA,
   (serveVersionJson_networkFirst stA
      [("totem-cache-A", [("/version.json", staleResp)])] "/version.json").2.1
      staleResp (by decide),
   (serveVersionJson_networkFirst stA [] "/version.json").2.2 (by decide)⟩

/-- C9: for every `UPDATE_VERSION` message carrying a truthy version
and a reply port, the `CACHE_UPDATE_COMPLETE` acknowledgment with that
version is posted when `updateCacheForNewVersion` settles — including
when the essential-set gate failed and the update aborted without
committing, in which case the pointer is left untouched (and no
failure notification was broadcast either).  Receiving the
acknowledgment therefore does not imply the pointer was reassigned. -/
theorem handleUpdateVersion_ack (v : String) (net : String → FetchResult)
    (bp : String) (st : SWState) (store : CacheStore) (hv : v ≠ "") :
    (handleUpdateVersion v net bp st store).portMessages
        = [{ type := "CACHE_UPDATE_COMPLETE", version := some v }]
    ∧ (hasEssential bp (downloadResults net (getAssets bp)) = false →
        (handleUpdateVersion v net bp st store).upd.st = st
        ∧ (handleUpdateVersion v net bp st store).upd.messages = []) := by
  constructor
  · simp [handleUpdateVersion, hv]
  · intro hgate
    constructor
    · simp [handleUpdateVersion, hv, updateCacheForNewVersion, hgate]
    · simp [handleUpdateVersion, hv, updateCacheForNewVersion, hgate]

/-- Witness for C9: a fully offline update attempt still produces the
`CACHE_UPDATE_COMPLETE` acknowledgment while the pointer stays on the
old generation. -/
theorem handleUpdateVersion_ack_witness :
    (handleUpdateVersion "B" netAllFail "" stA storeA).portMessages
        = [{ type := "CACHE_UPDATE_COMPLETE", version := some "B" }]
    ∧ (handleUpdateVersion "B" netAllFail "" stA storeA).upd.st = stA
    ∧ (handleUpdateVersion "B" netAllFail "" stA storeA).upd.messages = [] :=
  ⟨(handleUpdateVersion_ack "B" netAllFail "" stA storeA (by decide)).1,
   ((handleUpdateVersion_ack "B" netAllFail "" stA storeA (by decide)).2 (by decide)).1,
   ((handleUpdateVersion_ack "B" netAllFail "" stA storeA (by decide)).2 (by decide)).2⟩

/-- C10: when both the remote and the locally cached version resolve to
unknown, `initializeCacheName` sets `CACHE_NAME` to the hardcoded
default generation name (`prefixStr ++ "v1"`) while leaving
`CURRENT_VERSION` null — so the pointer's name and version-identifier
components disagree — and every subsequent activate event re-runs the
resolution step (with a fresh network fetch) because `CURRENT_VERSION`
is still unset. -/
theorem initializeCacheName_default_leaves_version_unset
    (netVersion : FetchResult) (store : CacheStore) (st : SWState)
    (h0 : st.CURRENT_VERSION = none)
    (h1 : fetchVersion netVersion = none)
    (h2 : getCachedVersion store = none) :
    (initializeCacheName netVersion store st).CACHE_NAME = prefixStr ++ "v1"
    ∧ (initializeCacheName netVersion store st).CURRENT_VERSION = none
    ∧ (initializeCacheName netVersion store st).CURRENT_VERSION ≠ some "v1"
    ∧ ∀ netVersion2 store2,
        (activateEvent netVersion2 (initializeCacheName netVersion store st)
            store2).ranInit = true
        ∧ (activateEvent netVersion2 (initializeCacheName netVersion store st)
            store2).st
          = initializeCacheName netVersion2 store2
              (initializeCacheName netVersion store st) := by
  have hini : initializeCacheName netVersion store st
      = { st with CACHE_NAME := "totem-cache-v1" } := by
    simp [initializeCacheName, h1, h2]
  have hcur : (initializeCacheName netVersion store st).CURRENT_VERSION = none := by
    rw [hini]; exact h0
  refine ⟨?_, hcur, by rw [hcur]; simp, fun nv2 s2 => ⟨?_, ?_⟩⟩
  · rw [hini]
    show ("totem-cache-v1" : String) = prefixStr ++ "v1"
    decide
  · simp [activateEvent, hcur]
  · simp [activateEvent, hcur]

/-- Witness for C10: fully offline first run from the initial state. -/
theorem initializeCacheName_default_leaves_version_unset_witness :
    (initializeCacheName .failure [] initialState).CACHE_NAME = prefixStr ++ "v1"
    ∧ (initializeCacheName .failure [] initialState).CURRENT_VERSION = none
    ∧ (initializeCacheName .failure [] initialState).CURRENT_VERSION ≠ some "v1"
    ∧ ∀ netVersion2 store2,
        (activateEvent netVersion2 (initializeCacheName .failure [] initialState)
            store2).ranInit = true
        ∧ (activateEvent netVersion2 (initializeCacheName .failure [] initialState)
            store2).st
          = initializeCacheName netVersion2 store2
              (initializeCacheName .failure [] initialState) :=
  initializeCacheName_default_leaves_version_unset .failure [] initialState
    (by decide) (by decide) (by decide)

/-- C7: in every gate-passing (successful) update run, the side-effect
trace decomposes around the pointer reassignment: no generation
deletion occurs before `CACHE_NAME` is reassigned to the new
generation's name, and every deletion after it targets a name different
from the new name — so at no step is the generation currently named by
the pointer deleted (before the flip the pointer still names the old
generation and nothing is deleted at all; after the flip it names the
new generation, which no deletion targets). -/
theorem update_deletion_after_reassignment (v : String) (net : String → FetchResult)
    (bp : String) (st : SWState) (store : CacheStore)
    (hgate : hasEssential bp (downloadResults net (getAssets bp)) = true) :
    ∃ t1 t2, (updateCacheForNewVersion v net bp st store).trace
        = t1 ++ UpdateStep.setPointer (prefixStr ++ v) v :: t2
      ∧ (∀ n, UpdateStep.deleteCache n ∉ t1)
      ∧ (∀ n, UpdateStep.deleteCache n ∈ t2 → n ≠ prefixStr ++ v) := by
  simp only [updateCacheForNewVersion, hgate, if_true]
  refine ⟨_, _, rfl, fun n hn => ?_, fun n hn => ?_⟩
  · obtain ⟨a, _, heq⟩ := List.mem_map.mp hn
    exact absurd heq (by simp)
  · rcases List.mem_append.mp hn with h | h
    · obtain ⟨m, hm, heq⟩ := List.mem_map.mp h
      obtain rfl : m = n := by injection heq
      have hp := (List.mem_filter.mp hm).2
      rw [Bool.and_eq_true] at hp
      exact bne_iff_ne.mp hp.2
    · simp at h

/-- Witness for C7: a fully online update from the `A` generation to
version `B`. -/
theorem update_deletion_after_reassignment_witness :
    ∃ t1 t2, (updateCacheForNewVersion "B" netAllFresh "" stA storeA).trace
        = t1 ++ UpdateStep.setPointer (prefixStr ++ "B") "B" :: t2
      ∧ (∀ n, UpdateStep.deleteCache n ∉ t1)
      ∧ (∀ n, UpdateStep.deleteCache n ∈ t2 → n ≠ prefixStr ++ "B") :=
  update_deletion_after_reassignment "B" netAllFresh "" stA storeA (by decide)

/-- Counterexample for C4 as stated: an update targeting the version
already active (reachable through an `UPDATE_VERSION` message carrying
the current version) passes the essential-set gate, yet the generation
`totem-cache-A` that was persisted before the update still persists
afterwards, is never the target of any deletion, and even retains its
pre-update entry `x` — so "every generation carrying the prefix that
was persisted before the Update has been deleted" fails. -/
theorem update_reuses_generation_counterexample :
    hasEssential "" (downloadResults netAllFresh (getAssets "")) = true
    ∧ "totem-cache-A" ∈ storeNames storeA
    ∧ "totem-cache-A" ∈ storeNames (updateCacheForNewVersion "A" netAllFresh "" stA storeA).store
    ∧ ((updateCacheForNewVersion "A" netAllFresh "" stA storeA).trace.all
        (fun s => !(isDeleteStep s))) = true
    ∧ cacheMatch (storeGet (updateCacheForNewVersion "A" netAllFresh "" stA storeA).store
        "totem-cache-A") "x" = some staleResp := by
  decide

/-- C4 (amended): after every gate-passing update whose target
generation name is not already persisted, exactly one generation
carrying the fixed prefix persists — the newly installed one — and
every prefixed generation persisted before the update is gone.  (When
the target name coincides with an already-persisted generation, that
generation is reused in place rather than deleted, as the
counterexample shows.) -/
theorem update_success_unique_generation (v : String) (net : String → FetchResult)
    (bp : String) (st : SWState) (store : CacheStore)
    (hfresh : prefixStr ++ v ∉ storeNames store)
    (hgate : hasEssential bp (downloadResults net (getAssets bp)) = true) :
    prefixStr ++ v ∈ storeNames (updateCacheForNewVersion v net bp st store).store
    ∧ (∀ n ∈ storeNames (updateCacheForNewVersion v net bp st store).store,
        strStartsWith n prefixStr = true → n = prefixStr ++ v)
    ∧ (∀ n ∈ storeNames store, strStartsWith n prefixStr = true →
        n ∉ storeNames (updateCacheForNewVersion v net bp st store).store) := by
  have hmem1 : prefixStr ++ v ∈ storeNames (storeOpen store (prefixStr ++ v)) :=
    mem_storeNames_storeOpen.mpr (Or.inr rfl)
  have hnames2 : storeNames (populate net (getAssets bp) (prefixStr ++ v)
      (storeOpen store (prefixStr ++ v))) = storeNames (storeOpen store (prefixStr ++ v)) :=
    storeNames_populate _ _ _ _ hmem1
  have hstore : (updateCacheForNewVersion v net bp st store).store
      = ((storeNames (populate net (getAssets bp) (prefixStr ++ v)
            (storeOpen store (prefixStr ++ v)))).filter
          (fun n => strStartsWith n prefixStr && n != prefixStr ++ v)).foldl storeDelete
          (populate net (getAssets bp) (prefixStr ++ v) (storeOpen store (prefixStr ++ v))) := by
    simp only [updateCacheForNewVersion, hgate, if_true]
  rw [hstore]
  refine ⟨?_, ?_, ?_⟩
  · rw [mem_storeNames_foldl_storeDelete]
    refine ⟨by rw [hnames2]; exact hmem1, fun hc => ?_⟩
    have hp := (List.mem_filter.mp hc).2
    rw [Bool.and_eq_true] at hp
    exact bne_iff_ne.mp hp.2 rfl
  · intro n hn hpre
    rw [mem_storeNames_foldl_storeDelete] at hn
    by_contra hne
    exact hn.2 (List.mem_filter.mpr ⟨hn.1,
      by rw [Bool.and_eq_true]; exact ⟨hpre, bne_iff_ne.mpr hne⟩⟩)
  · intro n hn hpre
    have hne : n ≠ prefixStr ++ v := fun e => hfresh (e ▸ hn)
    have hn2 : n ∈ storeNames (populate net (getAssets bp) (prefixStr ++ v)
        (storeOpen store (prefixStr ++ v))) := by
      rw [hnames2]
      exact mem_storeNames_storeOpen.mpr (Or.inl hn)
    rw [mem_storeNames_foldl_storeDelete]
    rintro ⟨-, hnot⟩
    exact hnot (List.mem_filter.mpr ⟨hn2,
      by rw [Bool.and_eq_true]; exact ⟨hpre, bne_iff_ne.mpr hne⟩⟩)

/-- Witness for C4 (amended): online update from the `A` generation to
the fresh version `B`. -/
theorem update_success_unique_generation_witness :
    prefixStr ++ "B" ∈ storeNames (updateCacheForNewVersion "B" netAllFresh "" stA storeA).store
    ∧ (∀ n ∈ storeNames (updateCacheForNewVersion "B" netAllFresh "" stA storeA).store,
        strStartsWith n prefixStr = true → n = prefixStr ++ "B")
    ∧ (∀ n ∈ storeNames storeA, strStartsWith n prefixStr = true →
        n ∉ storeNames (updateCacheForNewVersion "B" netAllFresh "" stA storeA).store) :=
  update_success_unique_generation "B" netAllFresh "" stA storeA (by decide) (by decide)

/-- Counterexample for C1 as stated: a fully offline update attempt
fails the essential-set gate and aborts — the new generation is deleted
and the pointer and pre-existing generation are untouched — but the
broadcast message list is empty: no `CACHE_UPDATE_FAILED` notification
is emitted (the source only broadcasts it from the `catch` block, which
the gate-failure `return` never reaches). -/
theorem update_gate_failure_silent_counterexample :
    hasEssential "" (downloadResults netAllFail (getAssets "")) = false
    ∧ (updateCacheForNewVersion "B" netAllFail "" stA storeA).messages = []
    ∧ (∀ m ∈ (updateCacheForNewVersion "B" netAllFail "" stA storeA).messages,
        m.type ≠ "CACHE_UPDATE_FAILED")
    ∧ (updateCacheForNewVersion "B" netAllFail "" stA storeA).st = stA
    ∧ (updateCacheForNewVersion "B" netAllFail "" stA storeA).store = storeA := by
  decide

/-- C1 (amended): whenever the essential-set gate fails (none of
document, script, stylesheet, version descriptor was fetched and stored
successfully) in an update run whose target generation name is not
already persisted, the update aborts — the newly created generation is
deleted, the Active Generation Pointer (`CACHE_NAME` /
`CURRENT_VERSION`) and every pre-existing generation are left exactly
unchanged — and no notification at all is emitted to clients (in
particular no `CACHE_UPDATE_FAILED`, which the source reserves for the
`catch` path). -/
theorem update_gate_failure_aborts (v : String) (net : String → FetchResult)
    (bp : String) (st : SWState) (store : CacheStore)
    (hfresh : prefixStr ++ v ∉ storeNames store)
    (hgate : hasEssential bp (downloadResults net (getAssets bp)) = false) :
    (updateCacheForNewVersion v net bp st store).st = st
    ∧ (updateCacheForNewVersion v net bp st store).store = store
    ∧ (updateCacheForNewVersion v net bp st store).messages = [] := by
  have hres : updateCacheForNewVersion v net bp st store
      = { st := st,
          store := storeDelete (populate net (getAssets bp) (prefixStr ++ v)
            (storeOpen store (prefixStr ++ v))) (prefixStr ++ v),
          messages := [],
          trace := ((getAssets bp).filter (fun a =>
              match net a with
              | .response r => r.ok
              | .failure => false)).map
            (fun a => UpdateStep.putAsset (prefixStr ++ v) a)
            ++ [UpdateStep.deleteCache (prefixStr ++ v)] } := by
    simp only [updateCacheForNewVersion, hgate, Bool.false_eq_true, if_false]
  rw [hres]
  refine ⟨rfl, ?_, rfl⟩
  show storeDelete (populate net (getAssets bp) (prefixStr ++ v)
      (storeOpen store (prefixStr ++ v))) (prefixStr ++ v) = store
  rw [storeDelete_populate]
  exact storeDelete_storeOpen_self hfresh

/-- Witness for C1 (amended): the fully offline gate-failure run. -/
theorem update_gate_failure_aborts_witness :
    (updateCacheForNewVersion "B" netAllFail "" stA storeA).st = stA
    ∧ (updateCacheForNewVersion "B" netAllFail "" stA storeA).store = storeA
    ∧ (updateCacheForNewVersion "B" netAllFail "" stA storeA).messages = [] :=
  update_gate_failure_aborts "B" netAllFail "" stA storeA (by decide) (by decide)

/-- Counterexample for C6 as stated: with the pointer naming
`totem-cache-A` throughout the task (no concurrent update at all), a
request cached only in the coexisting generation `totem-cache-B` is
answered from cache — the network fetch rejected, so the returned
response can only be a stored entry — yet the generation named by the
pointer holds no entry for it: the cached response was not read from
the generation currently named by the Active Generation Pointer,
because the source uses the global `caches.match`, which searches every
persisted cache in creation order. -/
theorem serveCacheFirst_nonpointer_read_counterexample :
    (serveCacheFirst "u" .failure
        [("totem-cache-A", []), ("totem-cache-B", [("u", staleResp)])]
        "totem-cache-A"
        [("totem-cache-A", []), ("totem-cache-B", [("u", staleResp)])]).response = staleResp
    ∧ cacheMatch (storeGet
        [("totem-cache-A", []), ("totem-cache-B", [("u", staleResp)])]
        "totem-cache-A") "u" = none := by
  decide

/-- C6 (amended): a Serve request answered from cache returns the first
matching entry across all persisted caches in creation order (the
global `caches.match`), not necessarily an entry of the generation
named by the pointer; and any cache write the task performs goes to the
generation named by `CACHE_NAME` at the moment the write runs, which —
since the global is only read inside the refresh callback — may differ
from the generation the cached response was read from. -/
theorem serveCacheFirst_read_any_write_current (req : String) (net : FetchResult)
    (stRead stWrite : CacheStore) (ptrAtWrite : String) (c : Response)
    (h : cachesMatch stRead req = some c) :
    (serveCacheFirst req net stRead ptrAtWrite stWrite).response = c
    ∧ ∀ n, (serveCacheFirst req net stRead ptrAtWrite stWrite).wroteTo = some n →
        n = ptrAtWrite := by
  unfold serveCacheFirst
  rw [h]
  cases net with
  | failure => exact ⟨rfl, by simp⟩
  | response r =>
    by_cases hok : r.ok = true
    · constructor
      · simp [hok]
      · intro n hn
        simp [hok] at hn
        exact hn.symm
    · constructor
      · simp [hok]
      · intro n hn
        simp [hok] at hn


/-- Witness for C6 (amended): a cached request served while the write
pointer names a third generation. -/
theorem serveCacheFirst_read_any_write_current_witness :
    (serveCacheFirst "u" (.response freshA)
        [("totem-cache-A", []), ("totem-cache-B", [("u", staleResp)])]
        "totem-cache-C"
        [("totem-cache-A", []), ("totem-cache-B", [("u", staleResp)])]).response = staleResp
    ∧ ∀ n, (serveCacheFirst "u" (.response freshA)
        [("totem-cache-A", []), ("totem-cache-B", [("u", staleResp)])]
        "totem-cache-C"
        [("totem-cache-A", []), ("totem-cache-B", [("u", staleResp)])]).wroteTo = some n →
        n = "totem-cache-C" :=
  serveCacheFirst_read_any_write_current "u" (.response freshA)
    [("totem-cache-A", []), ("totem-cache-B", [("u", staleResp)])]
    [("totem-cache-A", []), ("totem-cache-B", [("u", staleResp)])]
    "totem-cache-C" staleResp (by decide)

/-- Counterexample for C8 as stated: in a store where no persisted name
carries the fixed prefix but a (sole, hence newest) generation does
hold a stored version descriptor with a readable `version` field,
`getCachedVersion` returns the unknown sentinel without consulting any
descriptor — the source returns `null` immediately when the prefix
filter comes up empty, so the claimed fallback never runs in that
case. -/
theorem getCachedVersion_no_descriptor_fallback_counterexample :
    ((storeNames [("app-cache", [("/version.json", descrZ)])]).filter
        (fun n => strStartsWith n prefixStr)) = []
    ∧ cacheMatch (storeGet [("app-cache", [("/version.json", descrZ)])] "app-cache")
        "/version.json" = some descrZ
    ∧ descrZ.version = some "Z"
    ∧ getCachedVersion [("app-cache", [("/version.json", descrZ)])] = none := by
  decide

/-- C8 (amended): `getCachedVersion` filters the persisted cache names
by the fixed prefix; when none match it returns the unknown sentinel
immediately (no descriptor is consulted).  Otherwise it takes the
lexicographically greatest prefixed name and returns its suffix when
that is nonempty; only when the suffix is empty (the name is exactly
the bare prefix, so the regex capture fails) does it fall back to the
`version` field of that cache's stored `/version.json` entry. -/
theorem getCachedVersion_characterization (store : CacheStore) :
    ((storeNames store).filter (fun n => strStartsWith n prefixStr) = [] →
      getCachedVersion store = none)
    ∧ ∀ m, m ∈ (storeNames store).filter (fun n => strStartsWith n prefixStr) →
        (∀ n ∈ (storeNames store).filter (fun n => strStartsWith n prefixStr),
          strLe n m = true) →
        ((m.drop prefixStr.length ≠ "" →
            getCachedVersion store = some (m.drop prefixStr.length))
         ∧ (m.drop prefixStr.length = "" →
            getCachedVersion store =
              match cacheMatch (storeGet store m) "/version.json" with
              | some r => r.version
              | none => none)) := by
  constructor
  · intro htot
    simp only [getCachedVersion, htot]
    rfl
  · intro m hm hmax
    cases hrev : (sortAsc ((storeNames store).filter
        (fun n => strStartsWith n prefixStr))).reverse with
    | nil =>
      exfalso
      have hnil : sortAsc ((storeNames store).filter
          (fun n => strStartsWith n prefixStr)) = [] :=
        List.reverse_eq_nil_iff.mp hrev
      have hperm := List.perm_insertionSort strLeRel
        ((storeNames store).filter (fun n => strStartsWith n prefixStr))
      rw [show sortAsc ((storeNames store).filter (fun n => strStartsWith n prefixStr))
            = List.insertionSort strLeRel ((storeNames store).filter
              (fun n => strStartsWith n prefixStr)) from rfl] at hnil
      rw [hnil] at hperm
      rw [hperm.symm.eq_nil] at hm
      exact absurd hm (List.not_mem_nil m)
    | cons latest rest =>
      obtain ⟨hlat_mem, hlat_max⟩ := sortAsc_reverse_head_max hrev
      have heq : latest = m := strLe_antisymm (hmax latest hlat_mem) (hlat_max m hm)
      subst heq
      constructor
      · intro hsuf
        simp only [getCachedVersion, hrev]
        rw [if_pos hsuf]
      · intro hsuf
        simp only [getCachedVersion, hrev]
        rw [if_neg (fun hc => hc hsuf)]

/-- Witness for C8 (amended): the empty store, a store with one
normally-named generation, and a store whose sole prefixed name is the
bare prefix (descriptor fallback). -/
theorem getCachedVersion_characterization_witness :
    getCachedVersion ([] : CacheStore) = none
    ∧ getCachedVersion [("totem-cache-A", [])]
        = some ("totem-cache-A".drop prefixStr.length)
    ∧ getCachedVersion [("totem-cache-", [("/version.json", descrZ)])] =
        match cacheMatch (storeGet [("totem-cache-", [("/version.json", descrZ)])]
          "totem-cache-") "/version.json" with
        | some r => r.version
        | none => none :=
  ⟨(getCachedVersion_characterization []).1 (by decide),
   ((getCachedVersion_characterization [("totem-cache-A", [])]).2
      "totem-cache-A" (by decide) (by decide)).1 (by decide),
   ((getCachedVersion_characterization [("totem-cache-", [("/version.json", descrZ)])]).2
      "totem-cache-" (by decide) (by decide)).2 (by decide)⟩

end Totem
